import Mathlib

/-!
Verification of the pubsub demo (pubsub.go): topic-prefix message framing,
subscriber-side topic filtering, the publisher send loop and the subscriber
receive loop, and the socket option handling in subscribe.

Messages on the wire are modelled as `String` (the Go code builds them with
fmt.Sprintf and converts received byte slices back with string()); raw byte
slices are modelled as `List Char`.
-/

namespace PubSub

/-- Errors of the topic codec, from the error taxonomy of the design. -/
inductive CodecError
  | invalidTopic
  | malformedMessage
deriving DecidableEq, Repr

/-- From publish (pubsub.go:162-165): the wire frame is built by
fmt.Sprintf with format "%s|%s", i.e. topic, pipe separator, message,
with no validation of the topic. -/
def encode (topic message : String) : String :=
  topic ++ "|" ++ message

/-- Modelled from the spec: encode as section 4.1 demands it, failing with
InvalidTopic when the topic contains the separator character. The code
under src has no such check; this definition exists only to be compared
with `encode`. -/
def encodeSpec (topic message : String) : Except CodecError String :=
  if ('|' ∈ topic.data) then Except.error CodecError.invalidTopic
  else Except.ok (topic ++ "|" ++ message)

/-- Splits a character list at the first occurrence of the pipe separator,
returning the part before and the part after; none when no separator
occurs. -/
def splitAtSep : List Char → Option (List Char × List Char)
  | [] => none
  | c :: cs =>
    if c = '|' then some ([], cs)
    else
      match splitAtSep cs with
      | none => none
      | some (t, p) => some (c :: t, p)

/-- Modelled from the spec: decode (section 4.1) splits the frame at the
first separator occurrence into topic and payload, failing with
MalformedMessage when no separator is present. No decode exists in src;
receive (pubsub.go:170-173) returns the raw frame. -/
def decode (m : String) : Except CodecError (String × String) :=
  match splitAtSep m.data with
  | none => Except.error CodecError.malformedMessage
  | some (t, p) => Except.ok (String.mk t, String.mk p)

/-- Modelled from the spec: the Subscription Filter (section 4.2) accepts a
message iff its decoded topic is present in the interest set; exact string
membership. No such filter exists in src; the subscribe call only pushes
the topic to the socket option. -/
def accepts (interests : List String) (m : String) : Bool :=
  match decode m with
  | Except.ok (t, _) => interests.contains t
  | Except.error _ => false

theorem splitAtSep_append (t p : List Char) (h : '|' ∉ t) :
    splitAtSep (t ++ '|' :: p) = some (t, p) := by
  induction t with
  | nil => simp [splitAtSep]
  | cons c cs ih =>
    have hc : c ≠ '|' := fun e => h (e ▸ List.mem_cons_self c cs)
    have hcs : '|' ∉ cs := fun hm => h (List.mem_cons_of_mem c hm)
    simp only [List.cons_append, splitAtSep, if_neg hc, List.append_eq, ih hcs]

theorem splitAtSep_topic_no_sep :
    ∀ (l t p : List Char), splitAtSep l = some (t, p) → '|' ∉ t := by
  intro l
  induction l with
  | nil => intro t p h; exact Option.noConfusion h
  | cons c cs ih =>
    intro t p h
    by_cases hc : c = '|'
    · rw [hc] at h
      simp only [splitAtSep, eq_self_iff_true, if_true, Option.some.injEq,
        Prod.mk.injEq] at h
      intro hmem
      rw [← h.1] at hmem
      exact List.not_mem_nil _ hmem
    · simp only [splitAtSep, if_neg hc] at h
      cases hcs : splitAtSep cs with
      | none => rw [hcs] at h; simp at h
      | some tp =>
        rw [hcs] at h
        cases tp with
        | mk t0 p0 =>
          simp at h
          have ht0 := ih t0 p0 hcs
          intro hmem
          rw [← h.1] at hmem
          rcases List.mem_cons.mp hmem with h1 | h1
          · exact hc h1.symm
          · exact ht0 h1

theorem encode_data (T P : String) :
    (encode T P).data = T.data ++ '|' :: P.data := by
  simp [encode, String.data_append]

theorem decode_encode (T P : String) (h : '|' ∉ T.data) :
    decode (encode T P) = Except.ok (T, P) := by
  unfold decode
  rw [encode_data, splitAtSep_append T.data P.data h]

/-- C2: for every topic T not containing the separator and every payload P,
decode (encode T P) = (T, P); encode produces topic ++ "|" ++ payload and
decode splits at the first separator occurrence (the payload may itself
contain separators). -/
theorem roundTrip (T P : String) (h : '|' ∉ T.data) :
    decode (encode T P) = Except.ok (T, P) ∧ encode T P = T ++ "|" ++ P := by
  exact ⟨decode_encode T P h, rfl⟩

/-- Witness for roundTrip at topic "Weather" and a payload containing the
separator, exercising the first-occurrence split. -/
theorem roundTrip_witness :
    '|' ∉ "Weather".data ∧
      (decode (encode "Weather" "a|b") = Except.ok ("Weather", "a|b") ∧
        encode "Weather" "a|b" = "Weather" ++ "|" ++ "a|b") :=
  ⟨by decide, roundTrip "Weather" "a|b" (by decide)⟩

/-- C1: the subscription filter accepts a message iff its topic is a member
of the interest set; the membership test is exact-string and
case-sensitive, with no prefix semantics, as the two concrete conjuncts
show. -/
theorem accepts_iff_member (S : List String) (M t p : String)
    (h : decode M = Except.ok (t, p)) :
    (accepts S M = true ↔ t ∈ S) ∧
      accepts ["Weather"] (encode "WeatherForecast" "x") = false ∧
      accepts ["weather"] (encode "Weather" "x") = false := by
  refine ⟨?_, by decide, by decide⟩
  unfold accepts
  rw [h]
  simp [List.contains, List.elem_iff]

/-- Witness for accepts_iff_member on a concrete decodable message. -/
theorem accepts_iff_member_witness :
    decode "Technology|hi" = Except.ok ("Technology", "hi") ∧
      ((accepts ["Technology"] "Technology|hi" = true ↔
          "Technology" ∈ ["Technology"]) ∧
        accepts ["Weather"] (encode "WeatherForecast" "x") = false ∧
        accepts ["weather"] (encode "Weather" "x") = false) :=
  ⟨rfl, accepts_iff_member ["Technology"] "Technology|hi" "Technology" "hi" rfl⟩

/-- C3 counterexample: the encoding in the code never fails. On topic "a|b"
and payload "payload" it succeeds and yields "a|b|payload", where the spec
demands an InvalidTopic failure (as encodeSpec, written from the spec,
shows); decoding that frame splits inside the topic. -/
theorem encode_no_failure_counterexample :
    encode "a|b" "payload" = "a|b|payload" ∧
      encodeSpec "a|b" "payload" = Except.error CodecError.invalidTopic ∧
      decode (encode "a|b" "payload") = Except.ok ("a", "b|payload") := by
  refine ⟨rfl, rfl, rfl⟩

/-- C3 amended: encode performs no validation: for every topic containing
the separator it still succeeds, producing topic ++ "|" ++ payload, and the
round trip is broken rather than rejected (decode returns a different
topic, split at the first separator inside the original topic). -/
theorem encode_no_validation (T P : String) (h : '|' ∈ T.data) :
    encode T P = T ++ "|" ++ P ∧ decode (encode T P) ≠ Except.ok (T, P) := by
  refine ⟨rfl, ?_⟩
  intro hdec
  unfold decode at hdec
  cases hsplit : splitAtSep (encode T P).data with
  | none => rw [hsplit] at hdec; exact Except.noConfusion hdec
  | some tp =>
    cases tp with
    | mk t0 p0 =>
      rw [hsplit] at hdec
      have hno := splitAtSep_topic_no_sep _ t0 p0 hsplit
      simp only [Except.ok.injEq, Prod.mk.injEq] at hdec
      have : t0 = T.data := by
        have := hdec.1
        exact congrArg String.data this
      rw [this] at hno
      exact hno h

/-- Witness for encode_no_validation at the inputs of the spec test. -/
theorem encode_no_validation_witness :
    '|' ∈ "a|b".data ∧
      (encode "a|b" "payload" = "a|b" ++ "|" ++ "payload" ∧
        decode (encode "a|b" "payload") ≠ Except.ok ("a|b", "payload")) :=
  ⟨by decide, encode_no_validation "a|b" "payload" (by decide)⟩

/-- Outcome of a publisher run: the messages actually sent, in order, and
whether the run was aborted by a send error (log.Fatalf in the code). -/
structure ServerRun where
  sent : List String
  aborted : Bool
deriving DecidableEq, Repr

/-- From runServer (pubsub.go:184-194): sends the given frames in order;
the outcome of each socket.Send is supplied by the oracle (true = success,
false = SendError); log.Fatalf aborts the whole run at the first failed
send. An exhausted oracle means no further failures occur. -/
def sendAll : List String → List Bool → ServerRun
  | [], _ => ⟨[], false⟩
  | m :: ms, [] =>
    let r := sendAll ms []
    ⟨m :: r.sent, r.aborted⟩
  | m :: ms, ok :: rest =>
    if ok then
      let r := sendAll ms rest
      ⟨m :: r.sent, r.aborted⟩
    else ⟨[], true⟩

/-- From runServer (pubsub.go:185-193): one round publishes, for each topic
in order, the frame encode topic ("Message for " ++ topic), built with
fmt.Sprintf "Message for %s". -/
def roundMessages (topics : List String) : List String :=
  topics.map (fun topic => encode topic ("Message for " ++ topic))

/-- From runServer (pubsub.go:185-194): the outer loop runs the round body
a fixed number of times (5 in the code); the full emission sequence is the
round sequence repeated. -/
def serverMessages : Nat → List String → List String
  | 0, _ => []
  | r + 1, topics => roundMessages topics ++ serverMessages r topics

/-- From runServer (pubsub.go:177-195): the whole publisher run, with the
round count hardcoded to 5, against a given oracle of send outcomes. -/
def runServer (topics : List String) (sendOracle : List Bool) : ServerRun :=
  sendAll (serverMessages 5 topics) sendOracle

/-- Receive errors a subscriber can observe, from the error taxonomy. -/
inductive RecvError
  | timeout
  | connectionClosed
  | other
deriving DecidableEq, Repr

/-- From receive (pubsub.go:170-173): message, err := socket.Recv();
return string(message), err. The raw bytes are converted to a string and
returned unmodified. -/
def receive (recvResult : Except RecvError (List Char)) :
    Except RecvError String :=
  match recvResult with
  | Except.ok bytes => Except.ok (String.mk bytes)
  | Except.error e => Except.error e

/-- Outcome of a subscriber receive loop: the messages delivered to the
caller (printed), in order, and the error that aborted the loop, if any. -/
structure ClientRun where
  delivered : List String
  aborted : Option RecvError
deriving DecidableEq, Repr

/-- Number of receive iterations a client run performed: one per delivered
message plus one for the receive that returned the aborting error. -/
def ClientRun.receives (r : ClientRun) : Nat :=
  r.delivered.length + (match r.aborted with | some _ => 1 | none => 0)

/-- From runClient (pubsub.go:213-219): the receive loop runs for at most n
iterations (n = 5 * len(topics) at the call site); each iteration calls
receive on the socket; an error aborts via log.Fatalf; otherwise the
message is printed as is. The stream lists what each successive socket
Recv returns. -/
def runClientLoop : Nat → List (Except RecvError (List Char)) → ClientRun
  | 0, _ => ⟨[], none⟩
  | _ + 1, [] => ⟨[], none⟩
  | n + 1, r :: rest =>
    match receive r with
    | Except.ok m =>
      let res := runClientLoop n rest
      ⟨m :: res.delivered, res.aborted⟩
    | Except.error e => ⟨[], some e⟩

/-- From runClient (pubsub.go:198-220): the receive phase of a client run
over the given topics, bounded by 5 * len(topics) iterations. -/
def runClientReceives (topics : List String)
    (stream : List (Except RecvError (List Char))) : ClientRun :=
  runClientLoop (5 * topics.length) stream

theorem sendAll_no_failures (ms : List String) :
    sendAll ms [] = ⟨ms, false⟩ := by
  induction ms with
  | nil => rfl
  | cons m ms ih => simp [sendAll, ih]

theorem serverMessages_length (rounds : Nat) (topics : List String) :
    (serverMessages rounds topics).length = rounds * topics.length := by
  induction rounds with
  | zero => simp [serverMessages]
  | succ r ih =>
    simp [serverMessages, roundMessages, ih, Nat.succ_mul, Nat.add_comm]

/-- C5: a publisher run without send errors performs 5 rounds, each sending
one frame per topic in the given order with payload "Message for " ++
topic, so the messages sent are the round sequence repeated 5 times and
their number is 5 * len(topics). The round count of the code is the
constant 5; serverMessages keeps it as a parameter so the count law holds
for every round count. -/
theorem runServer_sends_all (topics : List String) (rounds : Nat) :
    runServer topics [] = ⟨serverMessages 5 topics, false⟩ ∧
      (serverMessages rounds topics).length = rounds * topics.length ∧
      serverMessages rounds topics =
        (List.replicate rounds (topics.map
          (fun topic => topic ++ "|" ++ ("Message for " ++ topic)))).flatten := by
  refine ⟨sendAll_no_failures _, serverMessages_length rounds topics, ?_⟩
  induction rounds with
  | zero => rfl
  | succ r ih =>
    simp only [serverMessages, List.replicate_succ, List.flatten_cons, ih]
    rfl

/-- C8 helper: the first send failure stops the run: only the frames before
it are sent and the run is marked aborted. -/
theorem sendAll_aborts_at_first_failure (k : Nat) :
    ∀ (ms : List String) (rest : List Bool), k < ms.length →
      sendAll ms (List.replicate k true ++ false :: rest) =
        ⟨ms.take k, true⟩ := by
  induction k with
  | zero =>
    intro ms rest h
    cases ms with
    | nil => exact absurd h (by simp)
    | cons m ms => simp [sendAll]
  | succ k ih =>
    intro ms rest h
    cases ms with
    | nil => exact absurd h (by simp)
    | cons m ms =>
      have hk : k < ms.length := by
        simpa [Nat.succ_lt_succ_iff] using h
      simp [List.replicate_succ, sendAll, ih ms rest hk, List.take_succ_cons]

/-- C8: the publisher performs no retry: when the send of frame k (0-based)
fails, exactly the first k frames have been sent and the run aborts, so no
message after the failed one is ever sent. -/
theorem runServer_no_retry (topics : List String) (k : Nat) (rest : List Bool)
    (h : k < 5 * topics.length) :
    runServer topics (List.replicate k true ++ false :: rest) =
      ⟨(serverMessages 5 topics).take k, true⟩ ∧
      ((serverMessages 5 topics).take k).length = k := by
  have hlen : k < (serverMessages 5 topics).length := by
    rw [serverMessages_length]; exact h
  constructor
  · exact sendAll_aborts_at_first_failure k (serverMessages 5 topics) rest hlen
  · simp [List.length_take, Nat.min_eq_left (Nat.le_of_lt hlen)]

/-- Witness for runServer_no_retry: two topics, failure at the fourth send. -/
theorem runServer_no_retry_witness :
    3 < 5 * (["A", "B"] : List String).length ∧
      (runServer ["A", "B"] (List.replicate 3 true ++ false :: []) =
        ⟨(serverMessages 5 ["A", "B"]).take 3, true⟩ ∧
        ((serverMessages 5 ["A", "B"]).take 3).length = 3) :=
  ⟨by decide, runServer_no_retry ["A", "B"] 3 [] (by decide)⟩

theorem string_mk_data (s : String) : String.mk s.data = s := rfl

/-- C4 counterexample: the subscriber of the code neither decodes nor
re-checks received messages. Subscribed to ["Weather"] only, a received
frame for topic "Technology" (which the filter of the spec rejects) is
delivered to the caller and counted: the received-count is 1, not 0. -/
theorem subscriber_no_recheck_counterexample :
    accepts ["Weather"] (encode "Technology" "hi") = false ∧
      runClientReceives ["Weather"]
          [Except.ok (encode "Technology" "hi").data] =
        ⟨[encode "Technology" "hi"], none⟩ ∧
      (runClientReceives ["Weather"]
          [Except.ok (encode "Technology" "hi").data]).receives = 1 := by
  refine ⟨by decide, rfl, rfl⟩

/-- C4 amended: the subscriber loop delivers every successfully received
message to the caller unchanged and counts each one, whatever its topic;
no decoding, no accepts re-check, no dropping happens in the loop (topic
filtering is left entirely to the subscribe socket option). With an
error-free stream the loop delivers exactly the first n frames. -/
theorem runClient_no_recheck (n : Nat) (msgs : List String) :
    runClientLoop n (msgs.map (fun m => Except.ok m.data)) =
      ⟨msgs.take n, none⟩ := by
  induction n generalizing msgs with
  | zero => simp [runClientLoop]
  | succ n ih =>
    cases msgs with
    | nil => rfl
    | cons m ms =>
      simp [runClientLoop, receive, ih, string_mk_data, List.take_succ_cons]

theorem runClientLoop_receives_le (n : Nat) :
    ∀ stream, (runClientLoop n stream).receives ≤ n := by
  induction n with
  | zero => intro stream; simp [runClientLoop, ClientRun.receives]
  | succ n ih =>
    intro stream
    cases stream with
    | nil => simp [runClientLoop, ClientRun.receives]
    | cons r rest =>
      cases hr : receive r with
      | ok m =>
        have := ih rest
        simp only [runClientLoop, hr, ClientRun.receives,
          List.length_cons] at *
        omega
      | error e =>
        simp [runClientLoop, hr, ClientRun.receives]

/-- C6: the receive loop of the subscriber performs at most
5 * len(topics) receive iterations and then terminates; with an empty
topic list it performs zero receives and delivers nothing. -/
theorem runClient_receive_bound (topics : List String)
    (stream : List (Except RecvError (List Char))) :
    (runClientReceives topics stream).receives ≤ 5 * topics.length ∧
      runClientReceives [] stream = ⟨[], none⟩ ∧
      (runClientReceives [] stream).receives = 0 := by
  exact ⟨runClientLoop_receives_le (5 * topics.length) stream, rfl, rfl⟩

/-- C9: the value receive returns is the raw wire bytes converted to a
string, unmodified, and the delivery path passes it to the caller as is:
the delivered message still carries the topic prefix and the separator, as
the concrete conjunct shows for the frame "Weather|hello". -/
theorem receive_raw_delivery (w : List Char) (n : Nat)
    (rest : List (Except RecvError (List Char))) :
    receive (Except.ok w) = Except.ok (String.mk w) ∧
      runClientLoop (n + 1) (Except.ok w :: rest) =
        ⟨String.mk w :: (runClientLoop n rest).delivered,
          (runClientLoop n rest).aborted⟩ ∧
      receive (Except.ok (encode "Weather" "hello").data) =
        Except.ok "Weather|hello" := by
  exact ⟨rfl, rfl, rfl⟩

/-- Subscriber socket option state: the byte sequences pushed via
OptionSubscribe and the receive deadline in seconds pushed via
OptionRecvDeadline; none means the option was never set (wait forever). -/
structure SubSocket where
  subscriptions : List (List Char)
  recvDeadline : Option Nat
deriving DecidableEq, Repr

/-- Error of a SetOption call, for the two options subscribe sets. -/
inductive SetOptionError
  | subscribeFailed
  | deadlineFailed
deriving DecidableEq, Repr

/-- From subscribe (pubsub.go:149-156): first
SetOption(OptionSubscribe, []byte(topic)); only when that returns nil,
SetOption(OptionRecvDeadline, 10*time.Second); the first error is
returned. The oracle booleans supply each SetOption outcome; a failed
SetOption leaves the socket state unchanged. -/
def subscribe (socket : SubSocket) (topic : String) (subOk deadlineOk : Bool) :
    SubSocket × Option SetOptionError :=
  if subOk then
    let s1 : SubSocket :=
      { socket with subscriptions := socket.subscriptions ++ [topic.data] }
    if deadlineOk then ({ s1 with recvDeadline := some 10 }, none)
    else (s1, some SetOptionError.deadlineFailed)
  else (socket, some SetOptionError.subscribeFailed)

/-- From runClient (pubsub.go:205-210): subscribe to each topic in turn;
log.Fatalf aborts the client at the first subscribe error. An exhausted
oracle means no further SetOption failures occur. -/
def subscribeAll :
    SubSocket → List String → List (Bool × Bool) →
      SubSocket × Option SetOptionError
  | socket, [], _ => (socket, none)
  | socket, t :: ts, [] => subscribeAll (subscribe socket t true true).1 ts []
  | socket, t :: ts, o :: rest =>
    match subscribe socket t o.1 o.2 with
    | (s1, none) => subscribeAll s1 ts rest
    | (s1, some e) => (s1, some e)

/-- C10: subscribe sets the 10-second receive deadline only after the
subscription option has been set successfully: when the subscription
SetOption fails, subscribe returns that error with the socket (and so the
deadline) unmodified, and the client subscribe loop aborts there; when it
succeeds, the deadline option is set to 10 seconds. When the deadline
SetOption itself fails the deadline also stays unmodified. -/
theorem subscribe_deadline_after_subscription (socket : SubSocket)
    (topic t : String) (d : Bool) (ts : List String)
    (rest : List (Bool × Bool)) :
    subscribe socket topic false d =
        (socket, some SetOptionError.subscribeFailed) ∧
      (subscribe socket topic true true).1.recvDeadline = some 10 ∧
      (subscribe socket topic true true).2 = none ∧
      (subscribe socket topic true false).1.recvDeadline =
        socket.recvDeadline ∧
      subscribeAll socket (t :: ts) ((false, d) :: rest) =
        (socket, some SetOptionError.subscribeFailed) := by
  refine ⟨by simp [subscribe], by simp [subscribe], by simp [subscribe],
    by simp [subscribe], ?_⟩
  simp [subscribeAll, subscribe]

/-- C7: after a successful subscription the receive deadline option is set
to 10 seconds, so every receive is bounded rather than waiting forever;
and a receive that reports an elapsed deadline (Timeout) aborts the
subscriber with that error, delivering nothing further. -/
theorem subscriber_timeout_aborts (socket : SubSocket) (topic : String)
    (topics : List String) (rest : List (Except RecvError (List Char)))
    (h : 0 < topics.length) :
    (subscribe socket topic true true).1.recvDeadline = some 10 ∧
      runClientReceives topics (Except.error RecvError.timeout :: rest) =
        ⟨[], some RecvError.timeout⟩ := by
  refine ⟨by simp [subscribe], ?_⟩
  obtain ⟨m, hm⟩ : ∃ m, 5 * topics.length = m + 1 :=
    ⟨5 * topics.length - 1, by omega⟩
  unfold runClientReceives
  rw [hm]
  rfl

/-- Witness for subscriber_timeout_aborts on a one-topic subscriber whose
first receive times out. -/
theorem subscriber_timeout_aborts_witness :
    0 < (["Weather"] : List String).length ∧
      ((subscribe ⟨[], none⟩ "Weather" true true).1.recvDeadline = some 10 ∧
        runClientReceives ["Weather"]
            (Except.error RecvError.timeout :: []) =
          ⟨[], some RecvError.timeout⟩) :=
  ⟨by decide,
    subscriber_timeout_aborts ⟨[], none⟩ "Weather" ["Weather"] [] (by decide)⟩

end PubSub
